import Mathlib

/-!
# Verification of the MCP todo demo (tool server and orchestration loop)

A shallow embedding, in Lean 4, of the parts of the repository that the
specification's testable properties are about:

* `src/good_todo_server.py` — the in-memory todo store and the four tool
  operations (`create_todo`, `list_todos`, `update_todo`, `delete_todo`);
* `src/todo_client.py` — the schema translation
  (`convert_to_anthropic_tools`) and the multi-pass orchestration loop
  (`process_with_llm`).

External collaborators (the Anthropic model API, the MCP transport and the
`json` module) are modelled as an explicit environment of functions, so that
the loop's control flow — which is what the claims are about — is embedded
faithfully while the collaborators stay abstract.
-/

/-- A JSON value, as manipulated by the Python code (dicts are association
lists in insertion order, mirroring Python dict semantics). -/
inductive Json where
  | null
  | bool (b : Bool)
  | num (n : Int)
  | str (s : String)
  | arr (xs : List Json)
  | obj (kvs : List (String × Json))
  deriving Repr

/-! ## The todo server (`src/good_todo_server.py`) -/

/-- One todo record, as built by `create_todo`: the Python dict with keys
`id`, `title`, `description`, `priority`, `completed`, `created_at` and,
after an update, `updated_at`.  Timestamps come from `datetime.now()`, an
external collaborator, so they are passed in as an argument `now`. -/
structure Todo where
  id : Int
  title : String
  description : String
  priority : String
  completed : Bool
  created_at : String
  updated_at : Option String
  deriving Repr, DecidableEq

/-- The in-memory store: `TodoStore` with `self.todos : Dict[int, ...]`
(an insertion-ordered association list) and `self._next_id = 1`. -/
structure TodoStore where
  todos : List (Int × Todo)
  next_id : Int
  deriving Repr, DecidableEq

/-- The module-level singleton `todo_store = TodoStore()`. -/
def todo_store : TodoStore := { todos := [], next_id := 1 }

/-- `TodoStore.get_next_id`: return the current `_next_id` and increment it. -/
def get_next_id (s : TodoStore) : Int × TodoStore :=
  (s.next_id, { s with next_id := s.next_id + 1 })

/-- Python dict assignment `d[k] = v`: replace the binding if the key is
present, otherwise append it (insertion order preserved). -/
def dictSet : List (Int × Todo) → Int → Todo → List (Int × Todo)
  | [], k, v => [(k, v)]
  | (k', v') :: rest, k, v =>
      if k' = k then (k, v) :: rest else (k', v') :: dictSet rest k v

/-- Python `d.pop(k)` on a dict known to contain `k`: remove the binding. -/
def dictPop (l : List (Int × Todo)) (k : Int) : List (Int × Todo) :=
  l.eraseP (fun kv => kv.1 == k)

/-- Result of a store operation: either the returned todo
(`{"success": True, ...}`) or the soft failure
(`{"success": False, "error": msg}`). -/
inductive OpOutcome where
  | ok (todo : Todo)
  | notFound (msg : String)
  deriving Repr, DecidableEq

/-- `create_todo`: draw a fresh id, build the todo record, store it, and
return `{"success": True, "todo": todo}`. -/
def create_todo (s : TodoStore) (title description priority now : String) :
    Todo × TodoStore :=
  let r := get_next_id s
  let todo : Todo :=
    { id := r.1, title := title, description := description,
      priority := priority, completed := false,
      created_at := now, updated_at := none }
  (todo, { r.2 with todos := dictSet r.2.todos r.1 todo })

/-- `list_todos`: filter the stored todos by completion status and return
them with `count` and `total`. -/
def list_todos (s : TodoStore) (status : String) :
    List Todo × Nat × Nat :=
  let filtered := s.todos.filterMap (fun kv =>
    if status = "all" then some kv.2
    else if status = "completed" ∧ kv.2.completed then some kv.2
    else if status = "pending" ∧ ¬ kv.2.completed then some kv.2
    else none)
  (filtered, filtered.length, s.todos.length)

/-- `update_todo`: if the id is absent, return
`{"success": False, "error": f"Todo {todo_id} not found"}` without touching
the store; otherwise overwrite exactly the provided fields, stamp
`updated_at`, and return the updated todo. -/
def update_todo (s : TodoStore) (todo_id : Int)
    (title description priority : Option String) (completed : Option Bool)
    (now : String) : OpOutcome × TodoStore :=
  match s.todos.lookup todo_id with
  | none => (OpOutcome.notFound ("Todo " ++ toString todo_id ++ " not found"), s)
  | some todo =>
      let todo :=
        { todo with
            title := title.getD todo.title,
            description := description.getD todo.description,
            priority := priority.getD todo.priority,
            completed := completed.getD todo.completed,
            updated_at := some now }
      (OpOutcome.ok todo, { s with todos := dictSet s.todos todo_id todo })

/-- `delete_todo`: if the id is absent, return
`{"success": False, "error": f"Todo {todo_id} not found"}` without touching
the store; otherwise pop the entry and return the deleted todo. -/
def delete_todo (s : TodoStore) (todo_id : Int) : OpOutcome × TodoStore :=
  match s.todos.lookup todo_id with
  | none => (OpOutcome.notFound ("Todo " ++ toString todo_id ++ " not found"), s)
  | some todo => (OpOutcome.ok todo, { s with todos := dictPop s.todos todo_id })

/-- One invocation of a server tool, for reasoning about operation
sequences against the store. -/
inductive StoreOp where
  | create (title description priority now : String)
  | update (todo_id : Int) (title description priority : Option String)
      (completed : Option Bool) (now : String)
  | delete (todo_id : Int)
  | listTodos (status : String)
  deriving Repr

/-- The store that results from one operation. -/
def applyOp (s : TodoStore) : StoreOp → TodoStore
  | StoreOp.create t d p now => (create_todo s t d p now).2
  | StoreOp.update tid t d p c now => (update_todo s tid t d p c now).2
  | StoreOp.delete tid => (delete_todo s tid).2
  | StoreOp.listTodos _ => s

/-- The ids handed out by the `create_todo` calls of an operation sequence,
in order of issue. -/
def issuedIds : List StoreOp → TodoStore → List Int
  | [], _ => []
  | StoreOp.create t d p now :: rest, s =>
      (create_todo s t d p now).1.id ::
        issuedIds rest (create_todo s t d p now).2
  | op :: rest, s => issuedIds rest (applyOp s op)

/-! ## The host client (`src/todo_client.py`) -/

/-- An MCP tool descriptor as seen by `convert_to_anthropic_tools`.  The
Python code probes `hasattr(tool, 'description')` and
`hasattr(tool, 'inputSchema')`, so both fields are optional here; a present
but non-dict schema is a `Json` value that is not `Json.obj`. -/
structure McpTool where
  name : String
  description : Option String
  inputSchema : Option Json

/-- The `input_schema` part of an Anthropic tool definition:
`{"type": "object", "properties": ..., "required": ...}`. -/
structure InputSchema where
  type : String
  properties : Json
  required : Json

/-- One entry of the list built by `convert_to_anthropic_tools`. -/
structure AnthropicTool where
  name : String
  description : String
  input_schema : InputSchema

/-- Python `params.get(k, d) if isinstance(params, dict) else d`. -/
def dictGet (j : Json) (k : String) (d : Json) : Json :=
  match j with
  | Json.obj kvs => (kvs.lookup k).getD d
  | _ => d

/-- The body of the `for tool in ...` loop of `convert_to_anthropic_tools`:
build one Anthropic tool definition from one descriptor. -/
def convertTool (t : McpTool) : AnthropicTool :=
  let params := t.inputSchema.getD (Json.obj [])
  { name := t.name,
    description := t.description.getD "",
    input_schema :=
      { type := "object",
        properties := dictGet params "properties" (Json.obj []),
        required := dictGet params "required" (Json.arr []) } }

/-- `TodoChatClient.convert_to_anthropic_tools`: start from an empty list
and append one converted definition per available tool. -/
def convert_to_anthropic_tools (tools : List McpTool) : List AnthropicTool :=
  tools.foldl (fun acc t => acc ++ [convertTool t]) []

/-- A content block of a model reply: the `type == "text"` /
`type == "tool_use"` dispatch made tagged. -/
inductive ContentBlock where
  | text (s : String)
  | toolUse (id name : String) (input : Json)

/-- A message of the growing `messages` list.  A tool result is appended by
the loop as a user-role message holding a single `tool_result` block, so it
is one constructor here, carrying `tool_use_id`, the `content` string and
the `is_error` flag (absent means `false`). -/
inductive Message where
  | user (text : String)
  | assistant (content : List ContentBlock)
  | toolResult (tool_use_id : String) (content : String) (isError : Bool)

/-- Outcome of one `anthropic_client.messages.create` call: a reply, or one
of the exception classes the loop catches. -/
inductive ModelOutcome where
  | reply (content : List ContentBlock)
  | connectionError (msg : String)
  | authError (msg : String)
  | otherError (msg : String)

/-- Outcome of one `mcp_client.call_tool` call: a raised exception, or a
response whose `content` attribute may be missing (`none`) or hold a list
of text blocks (each modelled by its `.text` string). -/
inductive ToolOutcome where
  | exn (msg : String)
  | ok (content : Option (List String))

/-- The external collaborators of `process_with_llm`: the model API, the
MCP tool transport, and the `json` module (`loads` may raise on malformed
input; `dumps` is total). -/
structure Env where
  callModel : List Message → ModelOutcome
  callTool : String → Json → ToolOutcome
  jsonLoads : String → Except String Json
  jsonDumps : Json → String

/-- `tool_calls = [block for block in response.content if block.type == "tool_use"]`,
keeping `(id, name, input)` of each block in order. -/
def toolCalls (content : List ContentBlock) : List (String × String × Json) :=
  content.filterMap (fun b =>
    match b with
    | ContentBlock.toolUse id name input => some (id, name, input)
    | _ => none)

/-- `text_blocks = [block for block in response.content if block.type == "text"]`. -/
def textBlocks (content : List ContentBlock) : List String :=
  content.filterMap (fun b =>
    match b with
    | ContentBlock.text s => some s
    | _ => none)

/-- `json.loads(result.content[0].text) if result.content else {}`, with a
missing `content` attribute also yielding the empty object. -/
def parseToolResponse (env : Env) (content : Option (List String)) :
    Except String Json :=
  match content with
  | none => Except.ok (Json.obj [])
  | some [] => Except.ok (Json.obj [])
  | some (t :: _) => env.jsonLoads t

/-- The `try`/`except` body around one tool call: invoke the tool, parse
its response, and build the `tool_result` message — a normal result on
success, an `is_error` result carrying `f"Error: {str(e)}"` when the call
or the parse raises. -/
def executeToolCall (env : Env) (id name : String) (args : Json) : Message :=
  match env.callTool name args with
  | ToolOutcome.exn e => Message.toolResult id ("Error: " ++ e) true
  | ToolOutcome.ok respContent =>
      match parseToolResponse env respContent with
      | Except.ok data => Message.toolResult id (env.jsonDumps data) false
      | Except.error e => Message.toolResult id ("Error: " ++ e) true

/-- The tool-result messages appended for one assistant reply, one per
`ToolUse` block, in block order. -/
def toolResults (env : Env) (content : List ContentBlock) : List Message :=
  (toolCalls content).map (fun c => executeToolCall env c.1 c.2.1 c.2.2)

/-- Whether the first list is a prefix of the second. -/
def listIsPrefixOf : List Char → List Char → Bool
  | [], _ => true
  | _ :: _, [] => false
  | a :: as, b :: bs => a == b && listIsPrefixOf as bs

/-- Whether `pat` occurs as a contiguous sublist. -/
def listContains (pat : List Char) : List Char → Bool
  | [] => pat.isEmpty
  | c :: rest => listIsPrefixOf pat (c :: rest) || listContains pat rest

/-- Python `pat in s`: substring test. -/
def strContains (s pat : String) : Bool := listContains pat.toList s.toList

/-- Python `s.lower()`: lowercase character by character. -/
def strLower (s : String) : String := String.mk (s.toList.map Char.toLower)

/-- The fixed message returned when `max_iterations` is exhausted. -/
def needMoreTimeMsg : String :=
  "I need more time to complete this request. Please try breaking it into smaller steps."

/-- The fixed fallback returned when a terminal reply has no text block. -/
def completedMsg : String := "I completed the task."

/-- The SSL-certificate remediation text of the `APIConnectionError`
handler. -/
def sslErrorText : String :=
  "🔒 SSL Certificate Error: Unable to connect to Claude API.\n\nThis could be caused by:\n1. Missing Python certificates (common on macOS)\n2. Corporate proxy/firewall (e.g., ZScaler) intercepting SSL\n\nPossible solutions:\n• Run: pip install --upgrade certifi\n• Check with your IT team about proxy certificates\n• Set proxy environment variables if behind a corporate firewall"

/-- The generic connection-failure text of the `APIConnectionError`
handler. -/
def connErrorText : String :=
  "🌐 Connection Error: Unable to reach Claude API.\nPlease check:\n1. Your internet connection\n2. Your ANTHROPIC_API_KEY is valid\n3. If behind a corporate proxy, set HTTPS_PROXY in your .env.local file"

/-- The `AuthenticationError` handler's text. -/
def authErrorText : String :=
  "🔑 Authentication Error: Invalid API key.\nPlease check that your ANTHROPIC_API_KEY in .env.local is correct."

/-- The `APIConnectionError` handler: pattern-match the lowered message for
`"certificate"` or `"ssl"` and pick the remediation text. -/
def connectionErrorReply (e : String) : String :=
  if strContains (strLower e) "certificate" || strContains (strLower e) "ssl" then
    sslErrorText
  else
    connErrorText

/-- The `for iteration in range(max_iterations)` loop of
`process_with_llm`, with the remaining iteration budget as fuel: call the
model; convert caught API exceptions to user-facing text; on a reply with
no tool calls return the first text block (or the fixed fallback); else
append the assistant message and one tool result per `ToolUse` block and
continue; with the budget exhausted return the fixed degradation message. -/
def loopIter (env : Env) : Nat → List Message → String
  | 0, _ => needMoreTimeMsg
  | Nat.succ k, msgs =>
      match env.callModel msgs with
      | ModelOutcome.reply content =>
          match toolCalls content with
          | [] =>
              match textBlocks content with
              | t :: _ => t
              | [] => completedMsg
          | _ :: _ =>
              loopIter env k
                (msgs ++ [Message.assistant content] ++ toolResults env content)
      | ModelOutcome.connectionError e => connectionErrorReply e
      | ModelOutcome.authError _ => authErrorText
      | ModelOutcome.otherError e => "Error: " ++ e

/-- `TodoChatClient.process_with_llm`: run the loop with
`max_iterations = 10` on a fresh conversation holding the user input. -/
def process_with_llm (env : Env) (user_input : String) : String :=
  loopIter env 10 [Message.user user_input]

/-- `loopIter` instrumented with the number of `callModel` invocations it
makes; its first component coincides with `loopIter`. -/
def loopIterCount (env : Env) : Nat → List Message → String × Nat
  | 0, _ => (needMoreTimeMsg, 0)
  | Nat.succ k, msgs =>
      match env.callModel msgs with
      | ModelOutcome.reply content =>
          match toolCalls content with
          | [] =>
              ((match textBlocks content with
                | t :: _ => t
                | [] => completedMsg), 1)
          | _ :: _ =>
              let r := loopIterCount env k
                (msgs ++ [Message.assistant content] ++ toolResults env content)
              (r.1, r.2 + 1)
      | ModelOutcome.connectionError e => (connectionErrorReply e, 1)
      | ModelOutcome.authError _ => (authErrorText, 1)
      | ModelOutcome.otherError e => ("Error: " ++ e, 1)

/-- The `tool_use_id` a conversation message carries, when it is a tool
result. -/
def resultId : Message → Option String
  | Message.toolResult i _ _ => some i
  | _ => none

/-- Whether a message is a tool result tagged with the given id. -/
def isResultFor (tid : String) : Message → Bool
  | Message.toolResult i _ _ => i == tid
  | _ => false

-- ===== helper lemmas =====

theorem update_todo_next_id (s : TodoStore) (tid : Int) (t d p : Option String)
    (c : Option Bool) (now : String) :
    (update_todo s tid t d p c now).2.next_id = s.next_id := by
  cases h : s.todos.lookup tid <;> simp [update_todo, h]

theorem delete_todo_next_id (s : TodoStore) (tid : Int) :
    (delete_todo s tid).2.next_id = s.next_id := by
  cases h : s.todos.lookup tid <;> simp [delete_todo, h]

theorem issuedIds_lb :
    ∀ (ops : List StoreOp) (s : TodoStore), ∀ x ∈ issuedIds ops s, s.next_id ≤ x := by
  intro ops
  induction ops with
  | nil => intro s x hx; simp [issuedIds] at hx
  | cons op rest ih =>
      intro s x hx
      cases op with
      | create t d p now =>
          simp only [issuedIds, List.mem_cons] at hx
          rcases hx with h | h
          · exact le_of_eq h.symm
          · have h2 := ih _ x h
            have h3 : (create_todo s t d p now).2.next_id = s.next_id + 1 := rfl
            rw [h3] at h2
            omega
      | update tid t d p c now =>
          simp only [issuedIds, applyOp] at hx
          have h2 := ih _ x hx
          rw [update_todo_next_id] at h2
          exact h2
      | delete tid =>
          simp only [issuedIds, applyOp] at hx
          have h2 := ih _ x hx
          rw [delete_todo_next_id] at h2
          exact h2
      | listTodos st =>
          simp only [issuedIds, applyOp] at hx
          exact ih _ x hx

theorem issuedIds_pairwise :
    ∀ (ops : List StoreOp) (s : TodoStore), (issuedIds ops s).Pairwise (· < ·) := by
  intro ops
  induction ops with
  | nil => intro s; simp [issuedIds]
  | cons op rest ih =>
      intro s
      cases op with
      | create t d p now =>
          simp only [issuedIds]
          refine List.Pairwise.cons ?_ (ih _)
          intro x hx
          have h2 := issuedIds_lb rest _ x hx
          have h3 : (create_todo s t d p now).2.next_id = s.next_id + 1 := rfl
          rw [h3] at h2
          have h4 : (create_todo s t d p now).1.id = s.next_id := rfl
          rw [h4]
          omega
      | update tid t d p c now => simpa only [issuedIds, applyOp] using ih _
      | delete tid => simpa only [issuedIds, applyOp] using ih _
      | listTodos st => simpa only [issuedIds, applyOp] using ih _

-- ===== C10 =====

/-- C10: ids issued by `create_todo` over any operation sequence are
strictly increasing and never reused, deletions included. -/
theorem create_ids_strictly_increasing (ops : List StoreOp) :
    (issuedIds ops todo_store).Pairwise (· < ·)
  ∧ (issuedIds ops todo_store).Nodup
  ∧ (∀ s : TodoStore, (issuedIds ops s).Pairwise (· < ·)
      ∧ ∀ x ∈ issuedIds ops s, s.next_id ≤ x) := by
  refine ⟨issuedIds_pairwise ops todo_store, ?_, fun s => ⟨issuedIds_pairwise ops s, issuedIds_lb ops s⟩⟩
  exact (issuedIds_pairwise ops todo_store).imp (fun h => ne_of_lt h)

-- ===== C5 =====

/-- C5: `update_todo` and `delete_todo` on an absent id do not raise: they
return `success=false` with the message `"Todo {todo_id} not found"` and
leave the store unchanged. -/
theorem notfound_soft_error (s : TodoStore) (tid : Int)
    (h : s.todos.lookup tid = none)
    (title description priority : Option String) (completed : Option Bool)
    (now : String) :
    update_todo s tid title description priority completed now
      = (OpOutcome.notFound ("Todo " ++ toString tid ++ " not found"), s)
  ∧ delete_todo s tid
      = (OpOutcome.notFound ("Todo " ++ toString tid ++ " not found"), s) := by
  constructor <;> simp [update_todo, delete_todo, h]

theorem notfound_soft_error_witness :
    update_todo todo_store 99 none none none none "t"
      = (OpOutcome.notFound ("Todo " ++ toString (99 : Int) ++ " not found"), todo_store)
  ∧ delete_todo todo_store 99
      = (OpOutcome.notFound ("Todo " ++ toString (99 : Int) ++ " not found"), todo_store) :=
  notfound_soft_error todo_store 99 rfl none none none none "t"

-- ===== C3 =====

/-- C3: the schema translation copies name and description, mirrors the
schema's `properties`/`required` when present, and defaults to an empty
mapping / empty sequence when the field or the schema is absent or the
schema is not a mapping; it is total (a Lean function), so it never throws. -/
theorem schema_translation_faithful (t : McpTool) :
    (convertTool t).name = t.name
  ∧ (∀ d, t.description = some d → (convertTool t).description = d)
  ∧ (t.description = none → (convertTool t).description = "")
  ∧ (convertTool t).input_schema.type = "object"
  ∧ (∀ kvs p, t.inputSchema = some (Json.obj kvs) →
        kvs.lookup "properties" = some p →
        (convertTool t).input_schema.properties = p)
  ∧ (∀ kvs r, t.inputSchema = some (Json.obj kvs) →
        kvs.lookup "required" = some r →
        (convertTool t).input_schema.required = r)
  ∧ (∀ kvs, t.inputSchema = some (Json.obj kvs) →
        kvs.lookup "properties" = none →
        (convertTool t).input_schema.properties = Json.obj [])
  ∧ (∀ kvs, t.inputSchema = some (Json.obj kvs) →
        kvs.lookup "required" = none →
        (convertTool t).input_schema.required = Json.arr [])
  ∧ (t.inputSchema = none →
        (convertTool t).input_schema.properties = Json.obj []
      ∧ (convertTool t).input_schema.required = Json.arr [])
  ∧ (∀ j, t.inputSchema = some j → (∀ kvs, j ≠ Json.obj kvs) →
        (convertTool t).input_schema.properties = Json.obj []
      ∧ (convertTool t).input_schema.required = Json.arr []) := by
  refine ⟨rfl, ?_, ?_, rfl, ?_, ?_, ?_, ?_, ?_, ?_⟩
  · intro d h; simp [convertTool, h]
  · intro h; simp [convertTool, h]
  · intro kvs p h hp; simp [convertTool, dictGet, h, hp]
  · intro kvs r h hr; simp [convertTool, dictGet, h, hr]
  · intro kvs h hp; simp [convertTool, dictGet, h, hp]
  · intro kvs h hr; simp [convertTool, dictGet, h, hr]
  · intro h; constructor <;> simp [convertTool, dictGet, h]
  · intro j h hne
    constructor <;>
      cases j <;> simp [convertTool, dictGet, h] <;> exact absurd rfl (hne _)

/-- A concrete descriptor shaped like the `create_todo` tool. -/
def exToolCreate : McpTool :=
  { name := "create_todo",
    description := some "Add a new task to the todo list with specified details.",
    inputSchema := some (Json.obj
      [("type", Json.str "object"),
       ("properties", Json.obj
         [("title", Json.obj [("type", Json.str "string")]),
          ("description", Json.obj [("type", Json.str "string")]),
          ("priority", Json.obj [("type", Json.str "string")])]),
       ("required", Json.arr [Json.str "title"])]) }

theorem schema_translation_faithful_witness :
    (convertTool exToolCreate).name = exToolCreate.name
  ∧ (convertTool exToolCreate).description
      = "Add a new task to the todo list with specified details."
  ∧ (convertTool exToolCreate).input_schema.properties
      = Json.obj
          [("title", Json.obj [("type", Json.str "string")]),
           ("description", Json.obj [("type", Json.str "string")]),
           ("priority", Json.obj [("type", Json.str "string")])]
  ∧ (convertTool exToolCreate).input_schema.required
      = Json.arr [Json.str "title"] :=
  ⟨(schema_translation_faithful exToolCreate).1,
   (schema_translation_faithful exToolCreate).2.1 _ rfl,
   (schema_translation_faithful exToolCreate).2.2.2.2.1 _ _ rfl rfl,
   (schema_translation_faithful exToolCreate).2.2.2.2.2.1 _ _ rfl rfl⟩

-- ===== C9 =====

theorem convert_foldl_map (ts : List McpTool) :
    ∀ acc : List AnthropicTool,
      ts.foldl (fun acc t => acc ++ [convertTool t]) acc = acc ++ ts.map convertTool := by
  induction ts with
  | nil => intro acc; simp
  | cons t rest ih => intro acc; simp [List.foldl_cons, ih]

/-- C9: the schema translation is a pure function of the descriptor list —
equal inputs give identical outputs, and the append-loop is exactly an
element-wise map of the per-descriptor translation, with no other state. -/
theorem schema_translation_idempotent (ts ts' : List McpTool) (h : ts = ts') :
    convert_to_anthropic_tools ts = convert_to_anthropic_tools ts'
  ∧ convert_to_anthropic_tools ts = ts.map convertTool := by
  subst h
  exact ⟨rfl, by simpa [convert_to_anthropic_tools] using convert_foldl_map ts []⟩

theorem schema_translation_idempotent_witness :
    convert_to_anthropic_tools [exToolCreate] = convert_to_anthropic_tools [exToolCreate]
  ∧ convert_to_anthropic_tools [exToolCreate] = [exToolCreate].map convertTool :=
  schema_translation_idempotent [exToolCreate] [exToolCreate] rfl

-- ===== C2 =====

theorem loopIterCount_fst (env : Env) :
    ∀ (fuel : Nat) (msgs : List Message),
      (loopIterCount env fuel msgs).1 = loopIter env fuel msgs := by
  intro fuel
  induction fuel with
  | zero => intro msgs; rfl
  | succ k ih =>
      intro msgs
      simp only [loopIterCount, loopIter]
      cases h : env.callModel msgs with
      | reply content =>
          cases hc : toolCalls content with
          | nil => simp [hc]
          | cons c cs => simp [hc, ih]
      | connectionError e => rfl
      | authError e => rfl
      | otherError e => rfl

theorem loopIterCount_le (env : Env) :
    ∀ (fuel : Nat) (msgs : List Message),
      (loopIterCount env fuel msgs).2 ≤ fuel := by
  intro fuel
  induction fuel with
  | zero => intro msgs; exact Nat.le_refl 0
  | succ k ih =>
      intro msgs
      simp only [loopIterCount]
      cases h : env.callModel msgs with
      | reply content =>
          cases hc : toolCalls content with
          | nil => simp [hc]
          | cons c cs =>
              simp only [hc]
              have := ih (msgs ++ [Message.assistant content] ++ toolResults env content)
              omega
      | connectionError e => simp
      | authError e => simp
      | otherError e => simp

/-- C2: the loop makes at most `fuel` model calls (10 for
`process_with_llm`), is a total function (so it always terminates with a
string, never an unhandled error), and returns exactly the fixed
degradation message once the iteration budget is exhausted. -/
theorem loop_bounded_termination (env : Env) (fuel : Nat) (msgs : List Message)
    (u : String) :
    (loopIterCount env fuel msgs).2 ≤ fuel
  ∧ (loopIterCount env fuel msgs).1 = loopIter env fuel msgs
  ∧ (loopIterCount env 10 [Message.user u]).2 ≤ 10
  ∧ loopIter env 0 msgs = needMoreTimeMsg
  ∧ process_with_llm env u = loopIter env 10 [Message.user u]
  ∧ needMoreTimeMsg
      = "I need more time to complete this request. Please try breaking it into smaller steps." :=
  ⟨loopIterCount_le env fuel msgs, loopIterCount_fst env fuel msgs,
   loopIterCount_le env 10 [Message.user u], rfl, rfl, rfl⟩

-- ===== C4 =====

/-- An environment whose model reply carries no content blocks at all. -/
def exEnvNoBlocks : Env :=
  { callModel := fun _ => ModelOutcome.reply [],
    callTool := fun _ _ => ToolOutcome.exn "unused",
    jsonLoads := fun _ => Except.ok (Json.obj []),
    jsonDumps := fun _ => "{}" }

/-- C4 counterexample: on a reply with no tool-use and no text block the
loop returns the literal `"I completed the task."`, not the string
`"task completed with no further detail"` the claim names. -/
theorem fallback_string_counterexample :
    process_with_llm exEnvNoBlocks "add a todo to buy milk" = "I completed the task."
  ∧ process_with_llm exEnvNoBlocks "add a todo to buy milk"
      ≠ "task completed with no further detail" := by
  constructor
  · rfl
  · have h : process_with_llm exEnvNoBlocks "add a todo to buy milk"
        = "I completed the task." := rfl
    rw [h]
    decide

/-- C4 (amended): a reply with no tool-use blocks terminates the loop with
the first text block's text, and with the fixed fallback
`"I completed the task."` when there is no text block either. -/
theorem final_answer_extraction (env : Env) (k : Nat) (msgs : List Message)
    (content : List ContentBlock)
    (hreply : env.callModel msgs = ModelOutcome.reply content)
    (hnone : toolCalls content = []) :
    (∀ t rest, textBlocks content = t :: rest → loopIter env (k+1) msgs = t)
  ∧ (textBlocks content = [] →
      loopIter env (k+1) msgs = completedMsg ∧ completedMsg = "I completed the task.") := by
  constructor
  · intro t rest ht
    simp [loopIter, hreply, hnone, ht]
  · intro ht
    exact ⟨by simp [loopIter, hreply, hnone, ht], rfl⟩

/-- An environment whose model replies immediately with one text block. -/
def exEnvTextOnly : Env :=
  { callModel := fun _ => ModelOutcome.reply [ContentBlock.text "All done."],
    callTool := fun _ _ => ToolOutcome.exn "unused",
    jsonLoads := fun _ => Except.ok (Json.obj []),
    jsonDumps := fun _ => "{}" }

theorem final_answer_extraction_witness :
    loopIter exEnvTextOnly (0+1) [Message.user "hi"] = "All done." :=
  (final_answer_extraction exEnvTextOnly 0 [Message.user "hi"]
      [ContentBlock.text "All done."] rfl rfl).1 "All done." [] rfl

-- ===== C8 =====

/-- C8: API connection and authentication exceptions from the model call
are caught and turned into fixed user-facing texts — SSL/certificate
remediation when the lowered message mentions a certificate or SSL,
generic connection advice otherwise, and the authentication text for
`AuthenticationError`; the loop returns these strings instead of
propagating the exception. -/
theorem api_error_converted (env : Env) (msgs : List Message) (k : Nat)
    (e : String) :
    (env.callModel msgs = ModelOutcome.connectionError e →
        loopIter env (k+1) msgs = connectionErrorReply e
      ∧ ((strContains (strLower e) "certificate" || strContains (strLower e) "ssl") = true →
            loopIter env (k+1) msgs = sslErrorText)
      ∧ ((strContains (strLower e) "certificate" || strContains (strLower e) "ssl") = false →
            loopIter env (k+1) msgs = connErrorText))
  ∧ (env.callModel msgs = ModelOutcome.authError e →
        loopIter env (k+1) msgs = authErrorText) := by
  constructor
  · intro h
    refine ⟨by simp [loopIter, h], ?_, ?_⟩ <;> intro hb <;>
      simp [loopIter, h, connectionErrorReply, hb]
  · intro h
    simp [loopIter, h]

/-- An environment whose model call raises a certificate-related
connection error. -/
def exEnvSsl : Env :=
  { callModel := fun _ => ModelOutcome.connectionError "self signed certificate in chain",
    callTool := fun _ _ => ToolOutcome.exn "unused",
    jsonLoads := fun _ => Except.ok (Json.obj []),
    jsonDumps := fun _ => "{}" }

theorem api_error_converted_witness :
    loopIter exEnvSsl (0+1) [Message.user "hi"] = sslErrorText :=
  ((api_error_converted exEnvSsl [Message.user "hi"] 0
      "self signed certificate in chain").1 rfl).2.1 (by decide)

-- ===== C7 =====

/-- C7: the loop parses the first content block's text as the JSON payload
of a tool response; a missing or empty content sequence yields the empty
object (serialized into a normal, non-error tool result), not an error. -/
theorem response_parse_first_block (env : Env) (t : String) (rest : List String)
    (id name : String) (args : Json) :
    parseToolResponse env none = Except.ok (Json.obj [])
  ∧ parseToolResponse env (some []) = Except.ok (Json.obj [])
  ∧ parseToolResponse env (some (t :: rest)) = env.jsonLoads t
  ∧ (env.callTool name args = ToolOutcome.ok none →
        executeToolCall env id name args
          = Message.toolResult id (env.jsonDumps (Json.obj [])) false)
  ∧ (env.callTool name args = ToolOutcome.ok (some []) →
        executeToolCall env id name args
          = Message.toolResult id (env.jsonDumps (Json.obj [])) false) := by
  refine ⟨rfl, rfl, rfl, ?_, ?_⟩ <;> intro h <;>
    simp [executeToolCall, h, parseToolResponse]

/-- An environment whose tool responses come back with an empty content
sequence. -/
def exEnvEmptyContent : Env :=
  { callModel := fun _ => ModelOutcome.reply [],
    callTool := fun _ _ => ToolOutcome.ok (some []),
    jsonLoads := fun _ => Except.error "unused",
    jsonDumps := fun _ => "{}" }

theorem response_parse_first_block_witness :
    parseToolResponse exEnvEmptyContent (some []) = Except.ok (Json.obj [])
  ∧ executeToolCall exEnvEmptyContent "t1" "list_todos" (Json.obj [])
      = Message.toolResult "t1" (exEnvEmptyContent.jsonDumps (Json.obj [])) false :=
  ⟨(response_parse_first_block exEnvEmptyContent "x" [] "t1" "list_todos" (Json.obj [])).2.1,
   (response_parse_first_block exEnvEmptyContent "x" [] "t1" "list_todos"
      (Json.obj [])).2.2.2.2 rfl⟩

-- ===== C1 helpers =====

theorem resultId_executeToolCall (env : Env) (id name : String) (args : Json) :
    resultId (executeToolCall env id name args) = some id := by
  cases h : env.callTool name args with
  | exn e => simp [executeToolCall, h, resultId]
  | ok c =>
      cases hp : parseToolResponse env c with
      | ok d => simp [executeToolCall, h, hp, resultId]
      | error e => simp [executeToolCall, h, hp, resultId]

theorem isResultFor_executeToolCall (env : Env) (tid id name : String) (args : Json) :
    isResultFor tid (executeToolCall env id name args) = (id == tid) := by
  cases h : env.callTool name args with
  | exn e => simp [executeToolCall, h, isResultFor]
  | ok c =>
      cases hp : parseToolResponse env c with
      | ok d => simp [executeToolCall, h, hp, isResultFor]
      | error e => simp [executeToolCall, h, hp, isResultFor]

theorem toolResults_map_resultId (env : Env) :
    ∀ cs : List (String × String × Json),
      (cs.map (fun c => executeToolCall env c.1 c.2.1 c.2.2)).map resultId
        = cs.map (fun c => some c.1) := by
  intro cs
  induction cs with
  | nil => rfl
  | cons c rest ih =>
      simp [List.map_cons, resultId_executeToolCall, ih]

theorem toolResults_filter_count (env : Env) (tid : String) :
    ∀ cs : List (String × String × Json),
      ((cs.map (fun c => executeToolCall env c.1 c.2.1 c.2.2)).filter
          (isResultFor tid)).length
        = ((cs.map (fun c => c.1)).count tid) := by
  intro cs
  induction cs with
  | nil => rfl
  | cons c rest ih =>
      simp only [List.map_cons, List.filter_cons, List.count_cons,
        isResultFor_executeToolCall]
      cases hc : (c.1 == tid)
      · simp [hc, ih]
      · simp [hc, ih]

-- ===== C1 =====

/-- C1: when a reply holds tool-use blocks, the next model call is made on
the conversation extended with the assistant message followed by exactly
one tool result per tool-use block, in block order, each tagged with the
block's id; with pairwise distinct ids every id is covered by exactly one
result message. -/
theorem tool_result_coverage (env : Env) (k : Nat) (msgs : List Message)
    (content : List ContentBlock)
    (hreply : env.callModel msgs = ModelOutcome.reply content)
    (hne : toolCalls content ≠ []) :
    loopIter env (k+1) msgs
      = loopIter env k (msgs ++ [Message.assistant content] ++ toolResults env content)
  ∧ (toolResults env content).map resultId
      = (toolCalls content).map (fun c => some c.1)
  ∧ (∀ tid : String,
        ((toolResults env content).filter (isResultFor tid)).length
          = ((toolCalls content).map (fun c => c.1)).count tid)
  ∧ (((toolCalls content).map (fun c => c.1)).Nodup →
        ∀ c ∈ toolCalls content,
          ((toolResults env content).filter (isResultFor c.1)).length = 1) := by
  refine ⟨?_, ?_, ?_, ?_⟩
  · obtain ⟨c, cs, hcc⟩ := List.exists_cons_of_ne_nil hne
    simp [loopIter, hreply, hcc]
  · exact toolResults_map_resultId env (toolCalls content)
  · intro tid
    exact toolResults_filter_count env tid (toolCalls content)
  · intro hnd c hc
    simp only [toolResults]
    rw [toolResults_filter_count env c.1 (toolCalls content)]
    exact List.count_eq_one_of_mem hnd (List.mem_map_of_mem (fun c => c.1) hc)

/-- An environment whose model requests two tool calls with distinct ids. -/
def exEnvTwoCalls : Env :=
  { callModel := fun _ => ModelOutcome.reply
      [ContentBlock.toolUse "t1" "create_todo" (Json.obj [("title", Json.str "buy milk")]),
       ContentBlock.toolUse "t2" "list_todos" (Json.obj [])],
    callTool := fun _ _ => ToolOutcome.ok (some ["{}"]),
    jsonLoads := fun _ => Except.ok (Json.obj []),
    jsonDumps := fun _ => "{}" }

/-- The content of `exEnvTwoCalls`'s reply. -/
def exContentTwoCalls : List ContentBlock :=
  [ContentBlock.toolUse "t1" "create_todo" (Json.obj [("title", Json.str "buy milk")]),
   ContentBlock.toolUse "t2" "list_todos" (Json.obj [])]

theorem tool_result_coverage_witness :
    ((toolResults exEnvTwoCalls exContentTwoCalls).filter (isResultFor "t1")).length = 1 :=
  (tool_result_coverage exEnvTwoCalls 0 [Message.user "hi"] exContentTwoCalls rfl
      (by simp [toolCalls, exContentTwoCalls])).2.2.2
    (by simp [toolCalls, exContentTwoCalls])
    ("t1", "create_todo", Json.obj [("title", Json.str "buy milk")])
    (by simp [toolCalls, exContentTwoCalls])

-- ===== C6 =====

/-- C6: a raised tool call yields exactly one `is_error` tool result
carrying `"Error: "` plus the exception text, tagged with the failing
block's id; the loop appends one result per tool-use block (so the failed
call is not retried) and proceeds to the next iteration instead of
crashing. -/
theorem transport_error_tool_result (env : Env) (k : Nat) (msgs : List Message)
    (content : List ContentBlock) (id name : String) (args : Json) (e : String)
    (hreply : env.callModel msgs = ModelOutcome.reply content)
    (hmem : ContentBlock.toolUse id name args ∈ content)
    (hexn : env.callTool name args = ToolOutcome.exn e) :
    executeToolCall env id name args = Message.toolResult id ("Error: " ++ e) true
  ∧ Message.toolResult id ("Error: " ++ e) true ∈ toolResults env content
  ∧ (toolResults env content).length = (toolCalls content).length
  ∧ loopIter env (k+1) msgs
      = loopIter env k (msgs ++ [Message.assistant content] ++ toolResults env content) := by
  have hcall : (id, name, args) ∈ toolCalls content := by
    simp only [toolCalls, List.mem_filterMap]
    exact ⟨ContentBlock.toolUse id name args, hmem, rfl⟩
  have hexec : executeToolCall env id name args
      = Message.toolResult id ("Error: " ++ e) true := by
    simp [executeToolCall, hexn]
  refine ⟨hexec, ?_, ?_, ?_⟩
  · rw [← hexec]
    exact List.mem_map_of_mem (fun c => executeToolCall env c.1 c.2.1 c.2.2) hcall
  · simp [toolResults]
  · obtain ⟨c, cs, hcc⟩ := List.exists_cons_of_ne_nil (List.ne_nil_of_mem hcall)
    simp [loopIter, hreply, hcc]

/-- An environment whose tool transport raises a connection reset. -/
def exEnvToolExn : Env :=
  { callModel := fun _ => ModelOutcome.reply
      [ContentBlock.toolUse "t9" "delete_todo" (Json.obj [("todo_id", Json.num 1)])],
    callTool := fun _ _ => ToolOutcome.exn "Connection reset by peer",
    jsonLoads := fun _ => Except.ok (Json.obj []),
    jsonDumps := fun _ => "{}" }

theorem transport_error_tool_result_witness :
    executeToolCall exEnvToolExn "t9" "delete_todo" (Json.obj [("todo_id", Json.num 1)])
      = Message.toolResult "t9" ("Error: " ++ "Connection reset by peer") true :=
  (transport_error_tool_result exEnvToolExn 0 [Message.user "hi"]
      [ContentBlock.toolUse "t9" "delete_todo" (Json.obj [("todo_id", Json.num 1)])]
      "t9" "delete_todo" (Json.obj [("todo_id", Json.num 1)]) "Connection reset by peer"
      rfl (List.mem_cons_self _ _) rfl).1
